import Mathlib

/-!
# Verification of the bounded-buffer log analyzer

Shallow embedding of the C sources `buffer.c`, `buffer.h` and
`200104004045_main.c` (a producer/consumer log analyzer), together with
proofs about the embedded definitions.

Modelling conventions:
* A C string (`char *`) is a `List Char`; the `NULL` pointer is `none`
  in `Option CStr`.  `NULL` is both the sentinel (EOF marker) payload and
  the failure return of `buffer_pop`, exactly as in the source.
* The array `lines` of the `Buffer` struct is a `List (Option CStr)` of length
  `capacity`.  `malloc` leaves the cells uninitialized in C; the model
  starts them at `none`, which is sound because the code only ever reads
  cells in the occupied segment `head, head+1, ..., head+count-1 (mod
  capacity)`.
* `int` counters that the program only zero-initializes and increments
  are modelled as `Nat`.
* The mutex serializes every buffer operation, so an interleaving of
  concurrent calls is a sequence of atomic operations (`BufOp` traces).
  A call of `buffer_push`/`buffer_pop` that blocks on a condition
  variable re-runs its wait loop each time it is woken with whatever
  state the buffer then has; the embedding passes the states observed at
  the successive wake-ups as an explicit list `wakes`, and returns
  `none` when the call is still blocked after the last listed wake-up.
-/

/-- A C string: `char *` contents as a list of characters. -/
abbrev CStr := List Char

/-- The `Buffer` struct of `buffer.h` (the pthread fields carry no data
and are omitted; the mutex is modelled by the atomicity of each
operation). -/
structure Buffer where
  lines : List (Option CStr)
  capacity : Nat
  count : Nat
  head : Nat
  tail : Nat
  shutting_down : Bool
deriving DecidableEq, Repr

/-- Function `buffer_init` of `buffer.c` after a successful `malloc`: every
bookkeeping field is zeroed and the shutdown flag is cleared. -/
def buffer_init (capacity : Nat) : Buffer :=
  { lines := List.replicate capacity none
    capacity := capacity
    count := 0
    head := 0
    tail := 0
    shutting_down := false }

/-- Function `buffer_init` including the `malloc` outcome: on allocation failure
the C code calls `perror` and `exit(EXIT_FAILURE)`, so no `Buffer` is
ever produced; the model returns `.error ()`. -/
def buffer_init_run (allocOk : Bool) (capacity : Nat) : Except Unit Buffer :=
  if allocOk then .ok (buffer_init capacity) else .error ()

/-- The store step of a successful `buffer_push`:
`lines[tail] = line; tail = (tail + 1) % capacity; count++;`. -/
def bufEnqueue (b : Buffer) (line : Option CStr) : Buffer :=
  { b with
    lines := b.lines.set b.tail line
    tail := (b.tail + 1) % b.capacity
    count := b.count + 1 }

/-- The removal step of a successful `buffer_pop`:
`line = lines[head]; lines[head] = NULL; head = (head + 1) % capacity;
count--;`. -/
def bufDequeue (b : Buffer) : Buffer :=
  { b with
    lines := b.lines.set b.head none
    head := (b.head + 1) % b.capacity
    count := b.count - 1 }

/-- Function `buffer_signal_shutdown` of `buffer.c`: sets the flag (the
condition-variable broadcasts are modelled by the wake-up lists of the
blocked calls). -/
def buffer_signal_shutdown (b : Buffer) : Buffer :=
  { b with shutting_down := true }

/-- Function `buffer_push` of `buffer.c`.  The wait loop is
`while (count == capacity) { if (shutting_down) return false;
cond_wait(...); if (shutting_down) return false; }`, followed by the
store.  `wakes` lists the buffer states observed at the successive
returns of `cond_wait`; the result is `none` if the call is still
blocked after the last of them, otherwise `some` of the returned `bool`
and the state of the buffer when the call completes. -/
def buffer_push (b : Buffer) (line : Option CStr) :
    List Buffer → Option (Bool × Buffer)
  | [] =>
    if b.count = b.capacity then
      if b.shutting_down then some (false, b) else none
    else some (true, bufEnqueue b line)
  | w :: ws =>
    if b.count = b.capacity then
      if b.shutting_down then some (false, b)
      else if w.shutting_down then some (false, w)
      else buffer_push w line ws
    else some (true, bufEnqueue b line)

/-- Function `buffer_pop` of `buffer.c`.  The wait loop is
`while (count == 0) { if (shutting_down) return NULL; cond_wait(...);
if (shutting_down && count == 0) return NULL; }`, followed by the
removal.  The returned `Option CStr` is the `char *` result, `none`
standing for `NULL` (shutdown with an empty queue, or a popped `NULL`
sentinel alike). -/
def buffer_pop (b : Buffer) :
    List Buffer → Option (Option CStr × Buffer)
  | [] =>
    if b.count = 0 then
      if b.shutting_down then some (none, b) else none
    else some (b.lines.getD b.head none, bufDequeue b)
  | w :: ws =>
    if b.count = 0 then
      if b.shutting_down then some (none, b)
      else if w.shutting_down ∧ w.count = 0 then some (none, w)
      else buffer_pop w ws
    else some (b.lines.getD b.head none, bufDequeue b)

/-- The logical contents of the buffer, in dequeue order: the occupied
ring segment `lines[(head + i) % capacity]` for `i < count`.  This is
exactly the segment `buffer_destroy` walks. -/
def bufItems (b : Buffer) : List (Option CStr) :=
  (List.range b.count).map (fun i => b.lines.getD ((b.head + i) % b.capacity) none)

/-- The strings freed by `buffer_destroy` of `buffer.c`: it walks the
occupied segment and frees every non-`NULL` entry. -/
def buffer_destroy_frees (b : Buffer) : List CStr :=
  (bufItems b).filterMap id

/-- Well-formedness of a `Buffer`, established by `buffer_init` and
preserved by every operation. -/
def BufWF (b : Buffer) : Prop :=
  0 < b.capacity ∧
  b.lines.length = b.capacity ∧
  b.count ≤ b.capacity ∧
  b.head < b.capacity ∧
  b.tail = (b.head + b.count) % b.capacity

instance (b : Buffer) : Decidable (BufWF b) := by
  unfold BufWF; infer_instance

/-- An atomic buffer operation, as serialized by the mutex.  A blocked
call occupies no trace position until the step at which it completes. -/
inductive BufOp where
  | push (line : Option CStr)
  | pop
  | shutdown
deriving DecidableEq, Repr

/-- One completed (or no-op) trace step.  The second and third
components record the line successfully enqueued resp. the line
actually dequeued by this step, if any.  A `push` on a full buffer and
a `pop` on an empty buffer change nothing: the call either fails (under
shutdown) or stays blocked, and in both cases the state is untouched
and nothing enters or leaves the ring. -/
def stepOp (b : Buffer) : BufOp → Buffer × List (Option CStr) × List (Option CStr)
  | .push line =>
    if b.count = b.capacity then (b, [], [])
    else (bufEnqueue b line, [line], [])
  | .pop =>
    if b.count = 0 then (b, [], [])
    else (bufDequeue b, [], [b.lines.getD b.head none])
  | .shutdown => (buffer_signal_shutdown b, [], [])

/-- Run a trace of operations, accumulating the successfully enqueued
lines and the dequeued lines in order. -/
def runOps (b : Buffer) : List BufOp → Buffer × List (Option CStr) × List (Option CStr)
  | [] => (b, [], [])
  | op :: ops =>
    let s := stepOp b op
    let r := runOps s.1 ops
    (r.1, s.2.1 ++ r.2.1, s.2.2 ++ r.2.2)

/-- A trace run from a freshly initialized buffer of capacity `c`. -/
def runFromInit (c : Nat) (ops : List BufOp) :
    Buffer × List (Option CStr) × List (Option CStr) :=
  runOps (buffer_init c) ops

/-- Test `strstr(line, term) != NULL` of `worker_function`: the search term
occurs as a contiguous substring of the line. -/
def strstr_found (line term : CStr) : Bool :=
  decide (term <:+: line)

/-- The pop loop of `worker_function` in `200104004045_main.c`, applied
to the sequence of values its `buffer_pop` calls return: it exits at the
first `NULL` (shutdown with an empty queue, or the sentinel), and
otherwise increments `local_matches` exactly when `strstr` finds the
search term. -/
def worker_loop (term : CStr) : List (Option CStr) → Nat
  | [] => 0
  | none :: _ => 0
  | some line :: rest =>
    (if strstr_found line term then 1 else 0) + worker_loop term rest

/-- Assignment `worker_match_counts[id] = v`: the single write each worker performs
at loop exit. -/
def write_slot (counts : List Nat) (id v : Nat) : List Nat :=
  counts.set id v

/-- All workers run their loops and store their local counters, each
into the slot indexed by its own id.  `streams` pairs the id of each worker
with the sequence of values its pops returned. -/
def run_workers (term : CStr) (streams : List (Nat × List (Option CStr)))
    (counts : List Nat) : List Nat :=
  streams.foldl (fun cs w => write_slot cs w.1 (worker_loop term w.2)) counts

/-- The summary step after `pthread_barrier_wait` in `worker_function`:
the participant that received `PTHREAD_BARRIER_SERIAL_THREAD`
(`isSerial`) adds every `worker_match_counts[i]` to
`g_total_matches_summary`; every other participant leaves it alone. -/
def worker_summary_step (counts : List Nat) (isSerial : Bool) (total : Nat) : Nat :=
  if isSerial then counts.foldl (· + ·) total else total

/-- All `N` participants pass the barrier in arrival order and run their
summary steps on `g_total_matches_summary` (initially `0`); `leader` is
the participant the barrier elected as serial thread. -/
def barrier_aggregate (counts : List Nat) (arrivals : List Nat) (leader : Nat) : Nat :=
  arrivals.foldl (fun t i => worker_summary_step counts (i == leader) t) 0

/-- The newline stripping of the manager loop in `200104004045_main.c`:
`if (read_len > 0 && line[read_len - 1] == '\n') line[read_len - 1] = 0;`. -/
def strip_newline (l : CStr) : CStr :=
  if l.getLast? = some '\n' then l.dropLast else l

/-- The sentinel-delivery loop of `main` (lines 235-241): starting at
worker `i` with `r` workers left, attempt `buffer_push(NULL)` once per
worker and break at the first failed push.  `outcomes j` is the value
the `j`-th attempted push returns (it depends on the concurrent queue
state).  The result lists every attempt with its outcome, in order. -/
def sentinel_run (outcomes : Nat → Bool) : Nat → Nat → List (Nat × Bool)
  | _, 0 => []
  | i, r + 1 =>
    (i, outcomes i) :: (if outcomes i then sentinel_run outcomes (i + 1) r else [])

/-- The attempts the delivery loop makes for `N` workers. -/
def sentinel_attempts (outcomes : Nat → Bool) (N : Nat) : List (Nat × Bool) :=
  sentinel_run outcomes 0 N

/-- The number of sentinels actually enqueued for `N` workers. -/
def sentinel_delivered (outcomes : Nat → Bool) (N : Nat) : Nat :=
  (sentinel_attempts outcomes N).countP Prod.snd

/-- The construction phase of `main` (lines 133-146) restricted to the
queue and the counters array: `buffer_init` (fatal on `malloc` failure),
then `calloc` of `worker_match_counts` (on failure the barrier and the
buffer are torn down again and `main` returns `EXIT_FAILURE` at once, so
nothing further runs). -/
def setup_run (allocLines allocCounts : Bool) (c n : Nat) :
    Except Unit (Buffer × List Nat) :=
  match buffer_init_run allocLines c with
  | .error e => .error e
  | .ok b => if allocCounts then .ok (b, List.replicate n 0) else .error ()

/-- Distinct offsets into the ring (both less than the capacity) land on
distinct cells. -/
theorem mod_off_ne (n a i j : Nat) (hi : i < n) (hj : j < n) (hij : i ≠ j) :
    (a + i) % n ≠ (a + j) % n := by
  intro h
  have h2 : i ≡ j [MOD n] :=
    Nat.ModEq.add_left_cancel' a (show (a + i) ≡ (a + j) [MOD n] from h)
  have h3 : i % n = j % n := h2
  rw [Nat.mod_eq_of_lt hi, Nat.mod_eq_of_lt hj] at h3
  exact hij h3

theorem getD_set_self {α : Type _} (l : List α) (j : Nat) (x d : α)
    (h : j < l.length) : (l.set j x).getD j d = x := by
  rw [List.getD_eq_getElem?_getD, List.getElem?_set_self h]
  rfl

theorem getD_set_ne {α : Type _} (l : List α) (i j : Nat) (x d : α)
    (h : j ≠ i) : (l.set j x).getD i d = l.getD i d := by
  rw [List.getD_eq_getElem?_getD, List.getD_eq_getElem?_getD,
    List.getElem?_set_ne h]

/-- A successful push appends its line at the logical end of the ring. -/
theorem bufItems_enqueue (b : Buffer) (x : Option CStr) (hwf : BufWF b)
    (hc : b.count < b.capacity) :
    bufItems (bufEnqueue b x) = bufItems b ++ [x] := by
  obtain ⟨hpos, hlen, hcnt, hhead, htail⟩ := hwf
  show (List.range (b.count + 1)).map
      (fun i => (b.lines.set b.tail x).getD ((b.head + i) % b.capacity) none) =
    (List.range b.count).map
      (fun i => b.lines.getD ((b.head + i) % b.capacity) none) ++ [x]
  rw [List.range_succ, List.map_append, List.map_cons, List.map_nil]
  congr 1
  case _ =>
    apply List.map_congr_left
    intro i hi
    have hi' : i < b.count := List.mem_range.mp hi
    apply getD_set_ne
    rw [htail]
    exact mod_off_ne b.capacity b.head b.count i hc (lt_trans hi' hc) (by omega)
  case _ =>
    have htl : b.tail < b.lines.length := by
      rw [hlen, htail]
      exact Nat.mod_lt _ hpos
    rw [← htail, getD_set_self b.lines b.tail x none htl]

/-- A successful pop removes exactly the item at the logical position
`head`, and the rest of the ring keeps its order. -/
theorem bufItems_dequeue (b : Buffer) (hwf : BufWF b) (hc : 0 < b.count) :
    bufItems b = b.lines.getD b.head none :: bufItems (bufDequeue b) := by
  obtain ⟨hpos, hlen, hcnt, hhead, htail⟩ := hwf
  obtain ⟨k, hk⟩ : ∃ k, b.count = k + 1 := ⟨b.count - 1, by omega⟩
  show (List.range b.count).map
      (fun i => b.lines.getD ((b.head + i) % b.capacity) none) =
    b.lines.getD b.head none ::
      (List.range (b.count - 1)).map
        (fun i => (b.lines.set b.head none).getD
          (((b.head + 1) % b.capacity + i) % b.capacity) none)
  rw [hk]
  rw [List.range_succ_eq_map, List.map_cons, List.map_map]
  have h0 : b.head % b.capacity = b.head := Nat.mod_eq_of_lt hhead
  congr 1
  case _ => rw [Nat.add_zero, h0]
  case _ =>
    simp only [Nat.add_succ_sub_one]
    apply List.map_congr_left
    intro i hi
    have hi' : i < k := List.mem_range.mp hi
    have hmod : ((b.head + 1) % b.capacity + i) % b.capacity =
        (b.head + (1 + i)) % b.capacity := by
      rw [Nat.mod_add_mod, Nat.add_assoc]
    have hne : b.head ≠ (b.head + (1 + i)) % b.capacity := by
      have := mod_off_ne b.capacity b.head 0 (1 + i) hpos (by omega) (by omega)
      rw [Nat.add_zero, h0] at this
      exact this
    rw [Function.comp_apply, hmod, getD_set_ne b.lines _ b.head none none hne]
    have harg : b.head + Nat.succ i = b.head + (1 + i) := by omega
    rw [harg]

/-- A successful push preserves well-formedness. -/
theorem wf_enqueue (b : Buffer) (x : Option CStr) (hwf : BufWF b)
    (hc : b.count < b.capacity) : BufWF (bufEnqueue b x) := by
  obtain ⟨hpos, hlen, hcnt, hhead, htail⟩ := hwf
  refine ⟨hpos, ?_, ?_, hhead, ?_⟩
  case _ => simpa [bufEnqueue] using hlen
  case _ =>
    show b.count + 1 ≤ b.capacity
    omega
  case _ =>
    show (b.tail + 1) % b.capacity = (b.head + (b.count + 1)) % b.capacity
    rw [htail, Nat.mod_add_mod, ← Nat.add_assoc]

/-- A successful pop preserves well-formedness. -/
theorem wf_dequeue (b : Buffer) (hwf : BufWF b) (hc : 0 < b.count) :
    BufWF (bufDequeue b) := by
  obtain ⟨hpos, hlen, hcnt, hhead, htail⟩ := hwf
  refine ⟨hpos, ?_, ?_, Nat.mod_lt _ hpos, ?_⟩
  case _ => simpa [bufDequeue] using hlen
  case _ =>
    show b.count - 1 ≤ b.capacity
    omega
  case _ =>
    show b.tail = ((b.head + 1) % b.capacity + (b.count - 1)) % b.capacity
    rw [Nat.mod_add_mod, htail]
    congr 1
    omega

/-- Signalling shutdown changes only the flag. -/
theorem wf_shutdown (b : Buffer) (hwf : BufWF b) :
    BufWF (buffer_signal_shutdown b) := hwf

theorem bufItems_shutdown (b : Buffer) :
    bufItems (buffer_signal_shutdown b) = bufItems b := rfl

theorem bufItems_init (c : Nat) : bufItems (buffer_init c) = [] := rfl

theorem wf_init (c : Nat) (hc : 0 < c) : BufWF (buffer_init c) := by
  refine ⟨hc, ?_, by simp [buffer_init], by simpa [buffer_init], by simp [buffer_init]⟩
  simp [buffer_init]

/-- No trace step changes the capacity. -/
theorem runOps_capacity (ops : List BufOp) :
    ∀ b : Buffer, (runOps b ops).1.capacity = b.capacity := by
  induction ops with
  | nil => intro b; rfl
  | cons op ops ih =>
    intro b
    cases op with
    | push line =>
      by_cases hfull : b.count = b.capacity <;>
        simp [runOps, stepOp, hfull, ih, bufEnqueue]
    | pop =>
      by_cases hempty : b.count = 0 <;>
        simp [runOps, stepOp, hempty, ih, bufDequeue]
    | shutdown => simp [runOps, stepOp, ih, buffer_signal_shutdown]

/-- Main trace invariant: every reachable state is well formed and the
lines dequeued so far, followed by the lines still in the ring, are
exactly the lines successfully enqueued so far, in order. -/
theorem runOps_spec (ops : List BufOp) :
    ∀ b : Buffer, BufWF b →
      BufWF (runOps b ops).1 ∧
      bufItems b ++ (runOps b ops).2.1 = (runOps b ops).2.2 ++ bufItems (runOps b ops).1 := by
  induction ops with
  | nil => intro b h; simpa [runOps] using h
  | cons op ops ih =>
    intro b h
    cases op with
    | push line =>
      by_cases hfull : b.count = b.capacity
      case pos =>
        have := ih b h
        simpa [runOps, stepOp, hfull] using this
      case neg =>
        have hlt : b.count < b.capacity := lt_of_le_of_ne h.2.2.1 hfull
        obtain ⟨ihw, ihe⟩ := ih (bufEnqueue b line) (wf_enqueue b line h hlt)
        refine ⟨by simpa [runOps, stepOp, hfull] using ihw, ?_⟩
        have hq := bufItems_enqueue b line h hlt
        simp only [runOps, stepOp, hfull, if_neg, ite_false]
        simp only [List.singleton_append, List.append_nil]
        calc bufItems b ++ (line :: (runOps (bufEnqueue b line) ops).2.1)
            = (bufItems b ++ [line]) ++ (runOps (bufEnqueue b line) ops).2.1 := by
              simp
          _ = bufItems (bufEnqueue b line) ++ (runOps (bufEnqueue b line) ops).2.1 := by
              rw [hq]
          _ = (runOps (bufEnqueue b line) ops).2.2 ++
                bufItems (runOps (bufEnqueue b line) ops).1 := ihe
    | pop =>
      by_cases hempty : b.count = 0
      case pos =>
        have := ih b h
        simpa [runOps, stepOp, hempty] using this
      case neg =>
        have hpos : 0 < b.count := Nat.pos_of_ne_zero hempty
        obtain ⟨ihw, ihe⟩ := ih (bufDequeue b) (wf_dequeue b h hpos)
        refine ⟨by simpa [runOps, stepOp, hempty] using ihw, ?_⟩
        have hq := bufItems_dequeue b h hpos
        simp only [runOps, stepOp, hempty, if_neg, ite_false]
        simp only [List.singleton_append, List.append_nil]
        calc bufItems b ++ (runOps (bufDequeue b) ops).2.1
            = (b.lines.getD b.head none :: bufItems (bufDequeue b)) ++
                (runOps (bufDequeue b) ops).2.1 := by rw [← hq]
          _ = b.lines.getD b.head none ::
                (bufItems (bufDequeue b) ++ (runOps (bufDequeue b) ops).2.1) := by
              simp
          _ = b.lines.getD b.head none ::
                ((runOps (bufDequeue b) ops).2.2 ++
                  bufItems (runOps (bufDequeue b) ops).1) := by rw [ihe]
          _ = (b.lines.getD b.head none :: (runOps (bufDequeue b) ops).2.2) ++
                bufItems (runOps (bufDequeue b) ops).1 := by simp
    | shutdown =>
      have := ih (buffer_signal_shutdown b) (wf_shutdown b h)
      simpa [runOps, stepOp, bufItems_shutdown] using this

/-- Calling `buffer_pop` on a non-empty buffer dequeues immediately, whatever
the wake-up list is. -/
theorem buffer_pop_dequeue (b : Buffer) (wakes : List Buffer)
    (h : b.count ≠ 0) :
    buffer_pop b wakes = some (b.lines.getD b.head none, bufDequeue b) := by
  cases wakes <;> simp [buffer_pop, h]

/-- Calling `buffer_pop` under shutdown with an empty queue returns `NULL`
immediately, whatever the wake-up list is. -/
theorem buffer_pop_shutdown_empty (b : Buffer) (wakes : List Buffer)
    (h1 : b.shutting_down = true) (h2 : b.count = 0) :
    buffer_pop b wakes = some (none, b) := by
  cases wakes <;> simp [buffer_pop, h1, h2]

/-- Calling `buffer_push` on a buffer with a free slot enqueues immediately,
whatever the wake-up list is — the shutdown flag is not consulted. -/
theorem buffer_push_space (b : Buffer) (line : Option CStr)
    (wakes : List Buffer) (h : b.count ≠ b.capacity) :
    buffer_push b line wakes = some (true, bufEnqueue b line) := by
  cases wakes <;> simp [buffer_push, h]

/-- Calling `buffer_push` on a full buffer under shutdown fails immediately. -/
theorem buffer_push_full_shutdown (b : Buffer) (line : Option CStr)
    (wakes : List Buffer) (h1 : b.shutting_down = true)
    (h2 : b.count = b.capacity) :
    buffer_push b line wakes = some (false, b) := by
  cases wakes <;> simp [buffer_push, h1, h2]

/-- Folding the summary loop body of `worker_function` over the counters
adds their sum to the running total. -/
theorem foldl_add_eq (counts : List Nat) :
    ∀ t : Nat, counts.foldl (· + ·) t = t + counts.sum := by
  induction counts with
  | nil => intro t; simp
  | cons a l ih =>
    intro t
    simp [List.foldl_cons, ih (t + a), List.sum_cons, Nat.add_assoc]

/-- Participants that are not the elected serial thread leave the total
untouched. -/
theorem barrier_no_leader (counts : List Nat) (leader : Nat) :
    ∀ (arrivals : List Nat) (t : Nat), arrivals.count leader = 0 →
      arrivals.foldl (fun t i => worker_summary_step counts (i == leader) t) t = t := by
  intro arrivals
  induction arrivals with
  | nil => intro t _; rfl
  | cons a l ih =>
    intro t h
    rw [List.count_cons] at h
    have ha : (a == leader) = false := by
      by_cases hae : a = leader
      case pos => simp [hae] at h
      case neg => simpa using hae
    simp only [List.foldl_cons, worker_summary_step, ha, Bool.false_eq_true,
      if_false]
    exact ih t (by omega)

/-- Running the post-barrier phase with exactly one elected serial
thread yields the sum of the counters, whatever the arrival order and
the starting total. -/
theorem barrier_aggregate_aux (counts : List Nat) (leader : Nat) :
    ∀ (arrivals : List Nat) (t : Nat), arrivals.count leader = 1 →
      arrivals.foldl (fun t i => worker_summary_step counts (i == leader) t) t =
        t + counts.sum := by
  intro arrivals
  induction arrivals with
  | nil => intro t h; simp [List.count_nil] at h
  | cons a l ih =>
    intro t h
    rw [List.count_cons] at h
    by_cases hae : a = leader
    case pos =>
      have hl : l.count leader = 0 := by simp [hae] at h; omega
      simp only [List.foldl_cons]
      have hstep : worker_summary_step counts (a == leader) t =
          counts.foldl (· + ·) t := by
        simp [worker_summary_step, hae]
      rw [hstep, barrier_no_leader counts leader l _ hl, foldl_add_eq]
    case neg =>
      have ha : (a == leader) = false := by simpa using hae
      simp only [List.foldl_cons]
      have hstep : worker_summary_step counts (a == leader) t = t := by
        simp [worker_summary_step, ha]
      rw [hstep]
      exact ih t (by simpa [hae] using h)

/-- Running the workers never changes the length of the counters array. -/
theorem run_workers_length (term : CStr) :
    ∀ (streams : List (Nat × List (Option CStr))) (counts : List Nat),
      (run_workers term streams counts).length = counts.length := by
  intro streams
  induction streams with
  | nil => intro counts; rfl
  | cons w l ih =>
    intro counts
    show (run_workers term l (write_slot counts w.1 (worker_loop term w.2))).length
        = counts.length
    rw [ih, write_slot, List.length_set]

/-- A slot owned by no worker in the list keeps its value. -/
theorem run_workers_untouched (term : CStr) :
    ∀ (streams : List (Nat × List (Option CStr))) (counts : List Nat) (i : Nat),
      i ∉ streams.map Prod.fst →
      (run_workers term streams counts).getD i 0 = counts.getD i 0 := by
  intro streams
  induction streams with
  | nil => intro counts i _; rfl
  | cons w l ih =>
    intro counts i hi
    rw [List.map_cons, List.mem_cons] at hi
    push_neg at hi
    show (run_workers term l (write_slot counts w.1 (worker_loop term w.2))).getD i 0
        = counts.getD i 0
    rw [ih _ i hi.2, write_slot, getD_set_ne counts i w.1 _ 0 (fun e => hi.1 (e ▸ rfl))]

/-- Function `worker_loop` counts exactly the matching lines among those that
precede the first `NULL` in the stream. -/
theorem worker_loop_counts (term : CStr) :
    ∀ s : List (Option CStr),
      worker_loop term s =
        ((s.takeWhile Option.isSome).filterMap id).countP
          (fun l => strstr_found l term) := by
  intro s
  induction s with
  | nil => rfl
  | cons o rest ih =>
    cases o with
    | none => simp [worker_loop, List.takeWhile_cons, Option.isSome]
    | some line =>
      simp only [worker_loop, List.takeWhile_cons, Option.isSome,
        List.filterMap_cons, id, List.countP_cons, ih]
      by_cases hm : strstr_found line term
      case pos => simp [hm, Nat.add_comm]
      case neg => simp [hm]

/-- The delivery loop makes at most one attempt per remaining worker. -/
theorem sentinel_run_length_le (o : Nat → Bool) :
    ∀ (r i : Nat), (sentinel_run o i r).length ≤ r := by
  intro r
  induction r with
  | zero => intro i; simp [sentinel_run]
  | succ r ih =>
    intro i
    by_cases ho : o i = true
    case pos =>
      simp only [sentinel_run, ho, if_true, List.length_cons]
      exact Nat.succ_le_succ (ih (i + 1))
    case neg =>
      simp [sentinel_run, ho]

/-- The attempted worker indices are consecutive, starting at `i`. -/
theorem sentinel_run_map_fst (o : Nat → Bool) :
    ∀ (r i : Nat), (sentinel_run o i r).map Prod.fst =
      List.range' i (sentinel_run o i r).length := by
  intro r
  induction r with
  | zero => intro i; rfl
  | succ r ih =>
    intro i
    by_cases ho : o i = true
    case pos =>
      simp only [sentinel_run, ho, if_true, List.map_cons, List.length_cons,
        List.range'_succ]
      rw [ih (i + 1)]
    case neg =>
      simp [sentinel_run, ho, List.range'_succ]

/-- A failed attempt is the last attempt: nothing follows a `false`. -/
theorem sentinel_run_false_last (o : Nat → Bool) :
    ∀ (r i j : Nat) (h : j < (sentinel_run o i r).length),
      ((sentinel_run o i r).get ⟨j, h⟩).2 = false →
      j + 1 = (sentinel_run o i r).length := by
  intro r
  induction r with
  | zero => intro i j h; simp [sentinel_run] at h
  | succ r ih =>
    intro i j h hf
    by_cases ho : o i = true
    case pos =>
      simp only [sentinel_run, ho, if_true] at h hf ⊢
      cases j with
      | zero => simp [List.get] at hf; rw [hf] at ho; cases ho
      | succ j =>
        rw [List.length_cons]
        have h' : j < (sentinel_run o (i + 1) r).length :=
          Nat.lt_of_succ_lt_succ (by simpa using h)
        have := ih (i + 1) j h' (by simpa [List.get, ho] using hf)
        omega
    case neg =>
      simp only [sentinel_run, ho, if_false, Bool.false_eq_true] at h ⊢
      simp only [List.length_cons, List.length_nil] at h ⊢
      omega

/-- The successfully delivered sentinels are exactly the attempts for
the first `countP` workers, in order. -/
theorem sentinel_run_filter (o : Nat → Bool) :
    ∀ (r i : Nat), ((sentinel_run o i r).filter Prod.snd).map Prod.fst =
      List.range' i ((sentinel_run o i r).countP Prod.snd) := by
  intro r
  induction r with
  | zero => intro i; rfl
  | succ r ih =>
    intro i
    by_cases ho : o i = true
    case pos =>
      simp only [sentinel_run, ho, if_true, List.filter_cons, List.countP_cons]
      simp only [ho, if_true, List.map_cons]
      rw [List.range'_succ, ih (i + 1)]
    case neg =>
      simp [sentinel_run, ho, List.filter_cons, List.countP_cons]

/-- A nonempty list is its `dropLast` plus its last element. -/
theorem mem_dropLast_or_getLast {α : Type _} (l : List α) (hne : l ≠ [])
    (a : α) (ha : a ∈ l) : a ∈ l.dropLast ∨ a = l.getLast hne := by
  have hsplit := List.dropLast_append_getLast hne
  rw [← hsplit] at ha
  rcases List.mem_append.mp ha with h | h
  case inl => exact Or.inl h
  case inr => exact Or.inr (by simpa using h)

/-- C1: for every interleaving (trace) of pushes and pops on a queue
constructed with capacity `c > 0`, the invariant `0 ≤ count ≤ c` holds
at all times (counts are naturals, and every reachable state — any
end state of any trace — satisfies `count ≤ c`); items are dequeued in
exactly the order they were enqueued, both with and without the `NULL`
sentinels (the dequeued lines followed by the remaining ring contents
are the enqueued lines); and the item at logical position `head` is
always the next to be dequeued. -/
theorem buffer_fifo_invariant (c : Nat) (ops : List BufOp) (hc : 0 < c) :
    (runFromInit c ops).1.count ≤ c ∧
    (runFromInit c ops).2.2 ++ bufItems (runFromInit c ops).1 =
      (runFromInit c ops).2.1 ∧
    ((runFromInit c ops).2.2).filterMap id ++
        (bufItems (runFromInit c ops).1).filterMap id =
      ((runFromInit c ops).2.1).filterMap id ∧
    ((runFromInit c ops).1.count ≠ 0 →
      buffer_pop (runFromInit c ops).1 [] =
        some ((bufItems (runFromInit c ops).1).getD 0 none,
          bufDequeue (runFromInit c ops).1)) := by
  obtain ⟨hw, he⟩ := runOps_spec ops (buffer_init c) (wf_init c hc)
  rw [bufItems_init, List.nil_append] at he
  have hcap : (runOps (buffer_init c) ops).1.capacity = c :=
    runOps_capacity ops (buffer_init c)
  have hcons : (runFromInit c ops).2.2 ++ bufItems (runFromInit c ops).1 =
      (runFromInit c ops).2.1 := by
    show (runOps (buffer_init c) ops).2.2 ++ bufItems (runOps (buffer_init c) ops).1 =
      (runOps (buffer_init c) ops).2.1
    rw [he]
  refine ⟨?_, hcons, ?_, ?_⟩
  case _ =>
    show (runOps (buffer_init c) ops).1.count ≤ c
    exact le_trans hw.2.2.1 (le_of_eq hcap)
  case _ =>
    rw [← List.filterMap_append]
    rw [hcons]
  case _ =>
    intro hne
    have hq := bufItems_dequeue (runOps (buffer_init c) ops).1 hw
      (Nat.pos_of_ne_zero hne)
    have hhead : (bufItems (runFromInit c ops).1).getD 0 none =
        (runOps (buffer_init c) ops).1.lines.getD
          (runOps (buffer_init c) ops).1.head none := by
      show (bufItems (runOps (buffer_init c) ops).1).getD 0 none = _
      rw [hq]
      rfl
    rw [hhead]
    exact buffer_pop_dequeue (runOps (buffer_init c) ops).1 [] hne

/-- Witness for C1 at capacity 2 and a concrete five-step trace. -/
theorem buffer_fifo_invariant_witness :
    0 < 2 ∧
    ((runFromInit 2 [BufOp.push (some ['a']), BufOp.push none, BufOp.pop,
        BufOp.shutdown, BufOp.pop]).1.count ≤ 2 ∧
      (runFromInit 2 [BufOp.push (some ['a']), BufOp.push none, BufOp.pop,
          BufOp.shutdown, BufOp.pop]).2.2 ++
          bufItems (runFromInit 2 [BufOp.push (some ['a']), BufOp.push none,
            BufOp.pop, BufOp.shutdown, BufOp.pop]).1 =
        (runFromInit 2 [BufOp.push (some ['a']), BufOp.push none, BufOp.pop,
          BufOp.shutdown, BufOp.pop]).2.1 ∧
      ((runFromInit 2 [BufOp.push (some ['a']), BufOp.push none, BufOp.pop,
          BufOp.shutdown, BufOp.pop]).2.2).filterMap id ++
          (bufItems (runFromInit 2 [BufOp.push (some ['a']), BufOp.push none,
            BufOp.pop, BufOp.shutdown, BufOp.pop]).1).filterMap id =
        ((runFromInit 2 [BufOp.push (some ['a']), BufOp.push none, BufOp.pop,
          BufOp.shutdown, BufOp.pop]).2.1).filterMap id ∧
      ((runFromInit 2 [BufOp.push (some ['a']), BufOp.push none, BufOp.pop,
          BufOp.shutdown, BufOp.pop]).1.count ≠ 0 →
        buffer_pop (runFromInit 2 [BufOp.push (some ['a']), BufOp.push none,
            BufOp.pop, BufOp.shutdown, BufOp.pop]).1 [] =
          some ((bufItems (runFromInit 2 [BufOp.push (some ['a']),
              BufOp.push none, BufOp.pop, BufOp.shutdown, BufOp.pop]).1).getD 0
              none,
            bufDequeue (runFromInit 2 [BufOp.push (some ['a']), BufOp.push none,
              BufOp.pop, BufOp.shutdown, BufOp.pop]).1))) :=
  ⟨by decide, buffer_fifo_invariant 2 [BufOp.push (some ['a']), BufOp.push none,
    BufOp.pop, BufOp.shutdown, BufOp.pop] (by decide)⟩

/-- C5: over any trace, every successfully pushed non-sentinel line is
accounted for exactly once — the non-`NULL` pushed lines are, in order,
the non-`NULL` dequeued lines followed by the lines `buffer_destroy`
frees from the ring at teardown; nothing is delivered twice, dropped,
or leaked. -/
theorem buffer_no_loss (c : Nat) (ops : List BufOp) (hc : 0 < c) :
    ((runFromInit c ops).2.1).filterMap id =
      ((runFromInit c ops).2.2).filterMap id ++
        buffer_destroy_frees (runFromInit c ops).1 := by
  obtain ⟨hw, he⟩ := runOps_spec ops (buffer_init c) (wf_init c hc)
  rw [bufItems_init, List.nil_append] at he
  show ((runOps (buffer_init c) ops).2.1).filterMap id =
    ((runOps (buffer_init c) ops).2.2).filterMap id ++
      buffer_destroy_frees (runOps (buffer_init c) ops).1
  rw [he, List.filterMap_append]
  rfl

/-- Witness for C5: capacity 1, one line delivered, one left behind for
`buffer_destroy` to free. -/
theorem buffer_no_loss_witness :
    0 < 1 ∧
    ((runFromInit 1 [BufOp.push (some ['x']), BufOp.pop,
        BufOp.push (some ['y']), BufOp.shutdown]).2.1).filterMap id =
      ((runFromInit 1 [BufOp.push (some ['x']), BufOp.pop,
          BufOp.push (some ['y']), BufOp.shutdown]).2.2).filterMap id ++
        buffer_destroy_frees (runFromInit 1 [BufOp.push (some ['x']), BufOp.pop,
          BufOp.push (some ['y']), BufOp.shutdown]).1 :=
  ⟨by decide, buffer_no_loss 1 [BufOp.push (some ['x']), BufOp.pop,
    BufOp.push (some ['y']), BufOp.shutdown] (by decide)⟩

/-- Counterexample to C3 as stated: with shutdown already requested on
a capacity-2 queue that is not full, `buffer_push` returns `true` and
enqueues the item — it does not "always return false without
enqueuing". -/
theorem push_during_shutdown_succeeds :
    (buffer_signal_shutdown (buffer_init 2)).shutting_down = true ∧
    buffer_push (buffer_signal_shutdown (buffer_init 2)) (some ['a']) [] =
      some (true, bufEnqueue (buffer_signal_shutdown (buffer_init 2))
        (some ['a'])) ∧
    (bufEnqueue (buffer_signal_shutdown (buffer_init 2)) (some ['a'])).count = 1 ∧
    bufItems (bufEnqueue (buffer_signal_shutdown (buffer_init 2)) (some ['a'])) =
      [some ['a']] := by
  decide

/-- C3 (amended): once shutdown has been requested, `buffer_push` never
blocks — it returns `false` without enqueuing exactly when the queue is
full (on entry, or at a wake-up while blocked); when `count < capacity`
it still enqueues at `tail`, advances `tail`, increments `count` and
returns `true`, shutdown notwithstanding.  Without shutdown, push
blocks only while `count = capacity`, and on success enqueues at
`tail`, advances `tail`, and increments `count`. -/
theorem buffer_push_semantics (b : Buffer) (line : Option CStr)
    (wakes : List Buffer) (w : Buffer) (ws : List Buffer) :
    (b.count ≠ b.capacity →
      buffer_push b line wakes = some (true, bufEnqueue b line)) ∧
    ((bufEnqueue b line).count = b.count + 1 ∧
      (bufEnqueue b line).tail = (b.tail + 1) % b.capacity ∧
      (bufEnqueue b line).lines = b.lines.set b.tail line) ∧
    (b.shutting_down = true → b.count = b.capacity →
      buffer_push b line wakes = some (false, b)) ∧
    (b.shutting_down = true → buffer_push b line wakes ≠ none) ∧
    (b.shutting_down = false → b.count = b.capacity →
      buffer_push b line [] = none) ∧
    (b.shutting_down = false → b.count = b.capacity → w.shutting_down = true →
      buffer_push b line (w :: ws) = some (false, w)) := by
  refine ⟨fun h => buffer_push_space b line wakes h, ⟨rfl, rfl, rfl⟩,
    fun h1 h2 => buffer_push_full_shutdown b line wakes h1 h2, ?_, ?_, ?_⟩
  case _ =>
    intro h1
    by_cases h2 : b.count = b.capacity
    case pos => rw [buffer_push_full_shutdown b line wakes h1 h2]; simp
    case neg => rw [buffer_push_space b line wakes h2]; simp
  case _ =>
    intro h1 h2
    simp [buffer_push, h1, h2]
  case _ =>
    intro h1 h2 h3
    simp [buffer_push, h1, h2, h3]

/-- Witness for C3 (amended): a full capacity-1 queue under shutdown
fails, then a non-full one succeeds; all hypotheses are discharged on
concrete states. -/
theorem buffer_push_semantics_witness :
    ((bufEnqueue (buffer_init 1) (some ['q'])).count ≠
        (bufEnqueue (buffer_init 1) (some ['q'])).capacity →
      buffer_push (bufEnqueue (buffer_init 1) (some ['q'])) (some ['r']) [] =
        some (true, bufEnqueue (bufEnqueue (buffer_init 1) (some ['q']))
          (some ['r']))) ∧
    ((bufEnqueue (bufEnqueue (buffer_init 1) (some ['q'])) (some ['r'])).count =
        (bufEnqueue (buffer_init 1) (some ['q'])).count + 1 ∧
      (bufEnqueue (bufEnqueue (buffer_init 1) (some ['q'])) (some ['r'])).tail =
        ((bufEnqueue (buffer_init 1) (some ['q'])).tail + 1) %
          (bufEnqueue (buffer_init 1) (some ['q'])).capacity ∧
      (bufEnqueue (bufEnqueue (buffer_init 1) (some ['q'])) (some ['r'])).lines =
        (bufEnqueue (buffer_init 1) (some ['q'])).lines.set
          (bufEnqueue (buffer_init 1) (some ['q'])).tail (some ['r'])) ∧
    ((bufEnqueue (buffer_init 1) (some ['q'])).shutting_down = true →
      (bufEnqueue (buffer_init 1) (some ['q'])).count =
        (bufEnqueue (buffer_init 1) (some ['q'])).capacity →
      buffer_push (bufEnqueue (buffer_init 1) (some ['q'])) (some ['r']) [] =
        some (false, bufEnqueue (buffer_init 1) (some ['q']))) ∧
    ((bufEnqueue (buffer_init 1) (some ['q'])).shutting_down = true →
      buffer_push (bufEnqueue (buffer_init 1) (some ['q'])) (some ['r']) [] ≠
        none) ∧
    ((bufEnqueue (buffer_init 1) (some ['q'])).shutting_down = false →
      (bufEnqueue (buffer_init 1) (some ['q'])).count =
        (bufEnqueue (buffer_init 1) (some ['q'])).capacity →
      buffer_push (bufEnqueue (buffer_init 1) (some ['q'])) (some ['r']) [] =
        none) ∧
    ((bufEnqueue (buffer_init 1) (some ['q'])).shutting_down = false →
      (bufEnqueue (buffer_init 1) (some ['q'])).count =
        (bufEnqueue (buffer_init 1) (some ['q'])).capacity →
      (buffer_signal_shutdown (buffer_init 1)).shutting_down = true →
      buffer_push (bufEnqueue (buffer_init 1) (some ['q'])) (some ['r'])
          (buffer_signal_shutdown (buffer_init 1) :: []) =
        some (false, buffer_signal_shutdown (buffer_init 1))) :=
  buffer_push_semantics (bufEnqueue (buffer_init 1) (some ['q'])) (some ['r'])
    [] (buffer_signal_shutdown (buffer_init 1)) []

/-- C4: once shutdown has been requested and the queue is empty, every
`buffer_pop` returns `NULL` without blocking (and the shutdown-and-empty
condition is re-checked after every wake-up: a wake-up into a
shutdown-and-empty state also returns `NULL`); on a non-empty queue
`buffer_pop` returns the item at `head`, advances `head`, and
decrements `count`. -/
theorem buffer_pop_semantics (b : Buffer) (wakes : List Buffer) (w : Buffer)
    (ws : List Buffer) :
    (b.shutting_down = true → b.count = 0 →
      buffer_pop b wakes = some (none, b)) ∧
    (b.count ≠ 0 →
      buffer_pop b wakes = some (b.lines.getD b.head none, bufDequeue b)) ∧
    ((bufDequeue b).head = (b.head + 1) % b.capacity ∧
      (bufDequeue b).count = b.count - 1) ∧
    (b.shutting_down = false → b.count = 0 → w.shutting_down = true →
      w.count = 0 → buffer_pop b (w :: ws) = some (none, w)) := by
  refine ⟨fun h1 h2 => buffer_pop_shutdown_empty b wakes h1 h2,
    fun h => buffer_pop_dequeue b wakes h, ⟨rfl, rfl⟩, ?_⟩
  intro h1 h2 h3 h4
  simp [buffer_pop, h1, h2, h3, h4]

/-- Witness for C4 on concrete states: a shut-down empty queue, a
non-empty queue, and a blocked pop woken into a shut-down empty state. -/
theorem buffer_pop_semantics_witness :
    ((buffer_init 1).shutting_down = true → (buffer_init 1).count = 0 →
      buffer_pop (buffer_init 1) [buffer_signal_shutdown (buffer_init 1)] =
        some (none, buffer_init 1)) ∧
    ((buffer_init 1).count ≠ 0 →
      buffer_pop (buffer_init 1) [buffer_signal_shutdown (buffer_init 1)] =
        some ((buffer_init 1).lines.getD (buffer_init 1).head none,
          bufDequeue (buffer_init 1))) ∧
    ((bufDequeue (buffer_init 1)).head =
        ((buffer_init 1).head + 1) % (buffer_init 1).capacity ∧
      (bufDequeue (buffer_init 1)).count = (buffer_init 1).count - 1) ∧
    ((buffer_init 1).shutting_down = false → (buffer_init 1).count = 0 →
      (buffer_signal_shutdown (buffer_init 1)).shutting_down = true →
      (buffer_signal_shutdown (buffer_init 1)).count = 0 →
      buffer_pop (buffer_init 1)
          (buffer_signal_shutdown (buffer_init 1) :: []) =
        some (none, buffer_signal_shutdown (buffer_init 1))) :=
  buffer_pop_semantics (buffer_init 1)
    [buffer_signal_shutdown (buffer_init 1)]
    (buffer_signal_shutdown (buffer_init 1)) []

/-- Counterexample to C6 as stated: popping the `NULL` sentinel from a
capacity-1 queue yields exactly the same return value (`NULL`/`none`) as
`buffer_pop` on a shut-down empty queue, so the two outcomes are not
distinguishable by the consumer. -/
theorem sentinel_not_distinguishable :
    (buffer_pop (bufEnqueue (buffer_init 1) none) []).map Prod.fst =
      some none ∧
    (buffer_pop (buffer_signal_shutdown (buffer_init 1)) []).map Prod.fst =
      some none ∧
    (buffer_pop (bufEnqueue (buffer_init 1) none) []).map Prod.fst =
      (buffer_pop (buffer_signal_shutdown (buffer_init 1)) []).map Prod.fst := by
  decide

/-- C6 (amended): the sentinel is the `NULL` payload; `buffer_pop`
returns `NULL` both when the item it dequeues is the sentinel and when
shutdown is observed with an empty queue, so the two cases are
indistinguishable to the consumer, and the worker loop exits on that
`NULL` in both cases without processing anything further. -/
theorem sentinel_conflated (b : Buffer) (wakes : List Buffer) (term : CStr)
    (rest : List (Option CStr)) :
    (b.count ≠ 0 → b.lines.getD b.head none = none →
      (buffer_pop b wakes).map Prod.fst = some none) ∧
    (b.shutting_down = true → b.count = 0 →
      (buffer_pop b wakes).map Prod.fst = some none) ∧
    worker_loop term (none :: rest) = 0 := by
  refine ⟨?_, ?_, rfl⟩
  case _ =>
    intro h1 h2
    rw [buffer_pop_dequeue b wakes h1]
    exact congrArg some h2
  case _ =>
    intro h1 h2
    rw [buffer_pop_shutdown_empty b wakes h1 h2]
    rfl

/-- Witness for C6 (amended) on concrete states: a queue holding the
sentinel, and a shut-down empty queue. -/
theorem sentinel_conflated_witness :
    ((bufEnqueue (buffer_init 1) none).count ≠ 0 →
      (bufEnqueue (buffer_init 1) none).lines.getD
          (bufEnqueue (buffer_init 1) none).head none = none →
      (buffer_pop (bufEnqueue (buffer_init 1) none) []).map Prod.fst =
        some none) ∧
    ((bufEnqueue (buffer_init 1) none).shutting_down = true →
      (bufEnqueue (buffer_init 1) none).count = 0 →
      (buffer_pop (bufEnqueue (buffer_init 1) none) []).map Prod.fst =
        some none) ∧
    worker_loop ['m'] (none :: [some ['m']]) = 0 :=
  sentinel_conflated (bufEnqueue (buffer_init 1) none) [] ['m'] [some ['m']]

/-- C2: with the counters all written before the barrier, exactly one
of the participants — the one to which the barrier run returns the
serial-thread value, a POSIX guarantee taken as the hypothesis
`arrivals.count leader = 1` — computes the aggregate, and the computed
total equals the sum of all per-worker counters regardless of the order
in which the workers arrive; a participant that is not the serial
thread leaves the total unchanged (no recomputation). -/
theorem rendezvous_aggregate (counts : List Nat) (arrivals : List Nat)
    (leader : Nat) (t : Nat) (hone : arrivals.count leader = 1) :
    barrier_aggregate counts arrivals leader = counts.sum ∧
    worker_summary_step counts false t = t := by
  refine ⟨?_, rfl⟩
  show arrivals.foldl (fun t i => worker_summary_step counts (i == leader) t) 0 =
    counts.sum
  rw [barrier_aggregate_aux counts leader arrivals 0 hone, Nat.zero_add]

/-- Witness for C2: three workers with counters 3, 4, 5 arriving in the
order 2, 0, 1, the barrier electing worker 1. -/
theorem rendezvous_aggregate_witness :
    [2, 0, 1].count 1 = 1 ∧
    (barrier_aggregate [3, 4, 5] [2, 0, 1] 1 = [3, 4, 5].sum ∧
      worker_summary_step [3, 4, 5] false 7 = 7) :=
  ⟨by decide, rendezvous_aggregate [3, 4, 5] [2, 0, 1] 1 7 (by decide)⟩

/-- The slot of each worker ends up holding exactly that worker local
counter: the worker writes it once at loop exit, and no other worker
writes the same slot. -/
theorem run_workers_slot (term : CStr) :
    ∀ (streams : List (Nat × List (Option CStr))) (counts : List Nat),
      (streams.map Prod.fst).Nodup →
      (∀ w ∈ streams, w.1 < counts.length) →
      ∀ w ∈ streams,
        (run_workers term streams counts).getD w.1 0 = worker_loop term w.2 := by
  intro streams
  induction streams with
  | nil => intro counts _ _ w hw; simp at hw
  | cons hd tl ih =>
    intro counts hnd hlen w hw
    rw [List.map_cons, List.nodup_cons] at hnd
    rcases List.mem_cons.mp hw with he | hm
    case inl =>
      show (run_workers term tl
          (write_slot counts hd.1 (worker_loop term hd.2))).getD w.1 0 =
        worker_loop term w.2
      rw [he, run_workers_untouched term tl _ hd.1 hnd.1, write_slot,
        getD_set_self counts hd.1 _ 0 (hlen hd (List.mem_cons_self hd tl))]
    case inr =>
      show (run_workers term tl
          (write_slot counts hd.1 (worker_loop term hd.2))).getD w.1 0 =
        worker_loop term w.2
      apply ih (write_slot counts hd.1 (worker_loop term hd.2)) hnd.2 ?_ w hm
      intro w' hw'
      rw [write_slot, List.length_set]
      exact hlen w' (List.mem_cons_of_mem hd hw')

/-- C7: the loop of every worker exits at the first `NULL` it pops (shutdown
with an empty queue, or the sentinel — both are `NULL`), and its local
counter equals the number of lines before that `NULL` on which the
match predicate (substring containment of the search term) holds; at
loop exit the counter is written into the slot indexed by the worker
own id, and with pairwise-distinct ids no write of another worker lands in
that slot, so the final array holds the own count of every worker. -/
theorem worker_loop_and_slots (term : CStr)
    (streams : List (Nat × List (Option CStr))) (counts0 : List Nat)
    (hids : (streams.map Prod.fst).Nodup)
    (hlen : ∀ w ∈ streams, w.1 < counts0.length) :
    ∀ w ∈ streams,
      (run_workers term streams counts0).getD w.1 0 = worker_loop term w.2 ∧
      worker_loop term w.2 =
        ((w.2.takeWhile Option.isSome).filterMap id).countP
          (fun l => strstr_found l term) :=
  fun w hw => ⟨run_workers_slot term streams counts0 hids hlen w hw,
    worker_loop_counts term w.2⟩

/-- Witness for C7: two workers with distinct ids and concrete streams,
one matching line before the sentinel for worker 0, none for worker 1. -/
theorem worker_loop_and_slots_witness :
    (([(0, [some ['x', 'm', 'a'], none, some ['m', 'a']]),
        (1, [some ['q'], none])] :
          List (Nat × List (Option CStr))).map Prod.fst).Nodup ∧
    (∀ w ∈ ([(0, [some ['x', 'm', 'a'], none, some ['m', 'a']]),
        (1, [some ['q'], none])] : List (Nat × List (Option CStr))),
      w.1 < ([9, 9] : List Nat).length) ∧
    ∀ w ∈ ([(0, [some ['x', 'm', 'a'], none, some ['m', 'a']]),
        (1, [some ['q'], none])] : List (Nat × List (Option CStr))),
      (run_workers ['m', 'a'] [(0, [some ['x', 'm', 'a'], none, some ['m', 'a']]),
          (1, [some ['q'], none])] [9, 9]).getD w.1 0 =
        worker_loop ['m', 'a'] w.2 ∧
      worker_loop ['m', 'a'] w.2 =
        ((w.2.takeWhile Option.isSome).filterMap id).countP
          (fun l => strstr_found l ['m', 'a']) :=
  ⟨by decide, by decide,
    worker_loop_and_slots ['m', 'a']
      [(0, [some ['x', 'm', 'a'], none, some ['m', 'a']]),
        (1, [some ['q'], none])] [9, 9] (by decide) (by decide)⟩

/-- C8: if allocation fails while constructing the queue or the
counters array, construction is fatal — the setup yields an error and
no (partially initialized) queue/counters pair is ever returned; when
both allocations succeed, the returned queue is fully initialized
(`count = head = tail = 0`, flag clear, backing array of the requested
capacity) and the counters array is zeroed. -/
theorem alloc_failure_fatal (aL aC : Bool) (c n : Nat) :
    (aL = false ∨ aC = false → setup_run aL aC c n = .error ()) ∧
    (aL = true → aC = true →
      setup_run aL aC c n = .ok (buffer_init c, List.replicate n 0)) ∧
    (buffer_init c).count = 0 ∧ (buffer_init c).head = 0 ∧
    (buffer_init c).tail = 0 ∧ (buffer_init c).shutting_down = false ∧
    (buffer_init c).capacity = c ∧ (buffer_init c).lines.length = c ∧
    buffer_init_run false c = .error () := by
  refine ⟨?_, ?_, rfl, rfl, rfl, rfl, rfl, by simp [buffer_init], rfl⟩
  case _ =>
    intro h
    cases aL <;> cases aC <;> simp_all [setup_run, buffer_init_run]
  case _ =>
    intro h1 h2
    rw [h1, h2]
    simp [setup_run, buffer_init_run]

/-- Witness for C8 at both a failing and a succeeding allocation. -/
theorem alloc_failure_fatal_witness :
    ((false = false ∨ true = false) → setup_run false true 3 2 = .error ()) ∧
    ((false : Bool) = true → (true : Bool) = true →
      setup_run false true 3 2 = .ok (buffer_init 3, List.replicate 2 0)) ∧
    (buffer_init 3).count = 0 ∧ (buffer_init 3).head = 0 ∧
    (buffer_init 3).tail = 0 ∧ (buffer_init 3).shutting_down = false ∧
    (buffer_init 3).capacity = 3 ∧ (buffer_init 3).lines.length = 3 ∧
    buffer_init_run false 3 = .error () :=
  alloc_failure_fatal false true 3 2

/-- A search term whose last character is a newline cannot occur inside
a newline-free string. -/
theorem no_newline_no_match (s term : CStr)
    (hs : ∀ ch ∈ s, ch ≠ '\n') (hterm : term.getLast? = some '\n') :
    ¬ term <:+: s := by
  intro hin
  have htne : term ≠ [] := by intro e; rw [e] at hterm; simp at hterm
  have hlast : term.getLast htne = '\n' := by
    have hl := List.getLast?_eq_getLast term htne
    rw [hl] at hterm
    exact Option.some.inj hterm
  exact hs '\n' (hin.subset (hlast ▸ List.getLast_mem htne)) rfl

/-- C9: at most one trailing newline is removed from each record read
by the producer (the stripped record is the record itself, or the
record minus a final newline); since `getline` puts a newline only in
the final position, the pushed item is newline-free, and therefore a
search term ending in a newline can never match the item. -/
theorem newline_stripped_no_match (record term : CStr)
    (hrec : ∀ ch ∈ record.dropLast, ch ≠ '\n')
    (hterm : term.getLast? = some '\n') :
    (strip_newline record = record ∨
      record = strip_newline record ++ ['\n']) ∧
    (∀ ch ∈ strip_newline record, ch ≠ '\n') ∧
    ¬ term <:+: strip_newline record := by
  by_cases h : record.getLast? = some '\n'
  case pos =>
    have hne : record ≠ [] := by intro e; rw [e] at h; simp at h
    have hlast : record.getLast hne = '\n' := by
      have hl := List.getLast?_eq_getLast record hne
      rw [hl] at h
      exact Option.some.inj h
    have hstrip : strip_newline record = record.dropLast := by
      simp [strip_newline, h]
    have hnl : ∀ ch ∈ strip_newline record, ch ≠ '\n' := by
      rw [hstrip]; exact hrec
    refine ⟨Or.inr ?_, hnl, no_newline_no_match _ term hnl hterm⟩
    rw [hstrip, ← hlast]
    exact (List.dropLast_append_getLast hne).symm
  case neg =>
    have hstrip : strip_newline record = record := by
      simp [strip_newline, h]
    have hnl : ∀ ch ∈ strip_newline record, ch ≠ '\n' := by
      rw [hstrip]
      intro ch hch
      by_cases hne : record = []
      case pos => rw [hne] at hch; simp at hch
      case neg =>
        rcases mem_dropLast_or_getLast record hne ch hch with hd | he
        case inl => exact hrec ch hd
        case inr =>
          intro e
          apply h
          rw [List.getLast?_eq_getLast record hne, ← he, e]
    exact ⟨Or.inl hstrip, hnl, no_newline_no_match _ term hnl hterm⟩

/-- Witness for C9: the record "hi\n" and the term "i\n". -/
theorem newline_stripped_no_match_witness :
    (∀ ch ∈ (['h', 'i', '\n'] : CStr).dropLast, ch ≠ '\n') ∧
    (['i', '\n'] : CStr).getLast? = some '\n' ∧
    ((strip_newline ['h', 'i', '\n'] = ['h', 'i', '\n'] ∨
        ['h', 'i', '\n'] = strip_newline ['h', 'i', '\n'] ++ ['\n']) ∧
      (∀ ch ∈ strip_newline ['h', 'i', '\n'], ch ≠ '\n') ∧
      ¬ ['i', '\n'] <:+: strip_newline ['h', 'i', '\n']) :=
  ⟨by decide, by decide,
    newline_stripped_no_match ['h', 'i', '\n'] ['i', '\n'] (by decide) (by decide)⟩

/-- C10: the sentinel-delivery loop attempts pushes in worker order,
stops at the first failed push, and never retries: the attempted worker
indices are exactly `0, 1, ...` up to the number of attempts (at most
`N`), the `k` sentinels actually enqueued are the first `k` planned
deliveries (a prefixed initial segment, `0 ≤ k ≤ N`), and a failed
attempt is always the last attempt. -/
theorem sentinel_delivery_shape (o : Nat → Bool) (N : Nat) (j : Nat)
    (hj : j < (sentinel_attempts o N).length) :
    sentinel_delivered o N ≤ N ∧
    (sentinel_attempts o N).length ≤ N ∧
    (sentinel_attempts o N).map Prod.fst =
      List.range (sentinel_attempts o N).length ∧
    ((sentinel_attempts o N).filter Prod.snd).map Prod.fst =
      List.range (sentinel_delivered o N) ∧
    (((sentinel_attempts o N).get ⟨j, hj⟩).2 = false →
      j + 1 = (sentinel_attempts o N).length) := by
  have hlen := sentinel_run_length_le o N 0
  refine ⟨le_trans (List.countP_le_length Prod.snd) hlen, hlen, ?_, ?_,
    fun hf => sentinel_run_false_last o N 0 j hj hf⟩
  case _ => rw [List.range_eq_range']; exact sentinel_run_map_fst o N 0
  case _ => rw [List.range_eq_range']; exact sentinel_run_filter o N 0

/-- Witness for C10: three planned sentinels, the second push fails. -/
theorem sentinel_delivery_shape_witness :
    1 < (sentinel_attempts (fun n => decide (n = 0)) 3).length ∧
    (sentinel_delivered (fun n => decide (n = 0)) 3 ≤ 3 ∧
      (sentinel_attempts (fun n => decide (n = 0)) 3).length ≤ 3 ∧
      (sentinel_attempts (fun n => decide (n = 0)) 3).map Prod.fst =
        List.range (sentinel_attempts (fun n => decide (n = 0)) 3).length ∧
      ((sentinel_attempts (fun n => decide (n = 0)) 3).filter Prod.snd).map
          Prod.fst =
        List.range (sentinel_delivered (fun n => decide (n = 0)) 3) ∧
      (((sentinel_attempts (fun n => decide (n = 0)) 3).get
          ⟨1, by decide⟩).2 = false →
        1 + 1 = (sentinel_attempts (fun n => decide (n = 0)) 3).length)) :=
  ⟨by decide, sentinel_delivery_shape (fun n => decide (n = 0)) 3 1 (by decide)⟩
